import Mathlib

/-!
Verification of the cost-guard subsystem of this repository
(`app/cost_cap.py`, `app/price_loader.py`, `app/executor_guard.py`).

Python floats on the small decimal amounts involved are modelled as exact
rationals (`ℚ`); Python `int` is modelled as `ℤ`.  A Python `dict` is
modelled as an insertion-ordered association list with the assignment
semantics of `d[k] = v` (update in place when the key exists, append
otherwise).  A Python exception is modelled with `Except`: a method of a
mutable object that may raise returns the post-state of the object paired
with an `Except` result, the error case keeping the pre-state (a `raise`
aborts before any assignment to the object).
-/

namespace CostCap

/-- A Python dict, as an insertion-ordered association list with unique keys. -/
abbrev Dict (α : Type) := List (String × α)

/-- Lookup, Python `d[k]` / `k in d`. -/
def dictFind? {α : Type} (d : Dict α) (k : String) : Option α :=
  (d.find? (fun p => p.1 == k)).map (fun p => p.2)

/-- Assignment, Python `d[k] = v`: overwrite in place if `k` is present,
append otherwise. -/
def dictInsert {α : Type} (d : Dict α) (k : String) (v : α) : Dict α :=
  if (d.find? (fun p => p.1 == k)).isSome then
    d.map (fun p => if p.1 == k then (k, v) else p)
  else
    d ++ [(k, v)]

/-- A price table: model key -> (input price per 1k, output price per 1k).
`cost_cap.py` type `Dict[str, Tuple[float, float]]`. -/
abbrev PriceTable := Dict (ℚ × ℚ)

/-- The process environment, `os.environ`, as an ordered association list. -/
abbrev Env := List (String × String)

/-- Python `os.environ.get(k)`. -/
def envGet (env : Env) (k : String) : Option String :=
  (env.find? (fun p => p.1 == k)).map (fun p => p.2)

/-! Python `str` methods, modelled structurally over the character list
(the repository only applies them to ASCII model names and env keys). -/

/-- Python `s.lower()`. -/
def pyLower (s : String) : String :=
  ⟨s.data.map Char.toLower⟩

/-- Python `s.strip()` with no argument: drop leading and trailing
whitespace. -/
def pyStrip (s : String) : String :=
  ⟨((s.data.dropWhile Char.isWhitespace).reverse.dropWhile Char.isWhitespace).reverse⟩

/-- Python `s.startswith(pre)`. -/
def pyStartsWith (s pre : String) : Bool :=
  pre.data.isPrefixOf s.data

/-- Python `s.endswith(suf)`. -/
def pyEndsWith (s suf : String) : Bool :=
  suf.data.isSuffixOf s.data

/-- Python `s[n:]`. -/
def pyDrop (s : String) (n : ℕ) : String :=
  ⟨s.data.drop n⟩

/-- Python `s[:-n]` for `0 < n ≤ len(s)`. -/
def pyDropRight (s : String) (n : ℕ) : String :=
  ⟨s.data.take (s.data.length - n)⟩

/-- The decimal fragment of Python `float(s)`: optional surrounding
whitespace, an optional sign, then a decimal numeral with at most one
point and at least one digit.  Strings outside this fragment (letters,
empty string, exponents, inf/nan) yield `none`, modelling the raised
`ValueError`; exponent/inf/nan inputs never occur in this development. -/
def digitsVal (cs : List Char) : ℕ :=
  cs.foldl (fun a c => a * 10 + (c.toNat - 48)) 0

def pyFloatCore? (cs : List Char) : Option ℚ :=
  let intPart := cs.takeWhile (fun c => c.isDigit)
  let rest := cs.dropWhile (fun c => c.isDigit)
  match rest with
  | [] => if intPart.isEmpty then none else some (digitsVal intPart)
  | '.' :: frac =>
      if frac.all (fun c => c.isDigit) && !(intPart.isEmpty && frac.isEmpty) then
        some ((digitsVal intPart : ℚ) + (digitsVal frac : ℚ) / (10 ^ frac.length))
      else none
  | _ => none

def pyFloat? (s : String) : Option ℚ :=
  match (pyStrip s).data with
  | '-' :: rest => (pyFloatCore? rest).map (fun q => -q)
  | '+' :: rest => pyFloatCore? rest
  | rest => pyFloatCore? rest

/-- Embeds `cost_cap.Budget`. -/
structure Budget where
  cap_usd : ℚ
  warn_threshold_pct : ℚ := 8/10
  enforce_mode : String := "strict"
  deriving Repr, DecidableEq

/-- Embeds `cost_cap._env_float(name, default)`: read a float from env, falling
back to the default when the variable is missing or blank; an unparseable
value raises `ValueError`. -/
def _env_float (env : Env) (name : String) (default : ℚ) : Except String ℚ :=
  match envGet env name with
  | none => Except.ok default
  | some v =>
      if v = "" then Except.ok default
      else
        match pyFloat? v with
        | some x => Except.ok x
        | none => Except.error ("could not convert string to float: " ++ v)

/-- Embeds `cost_cap.load_budget_from_env()`; the first conversion that raises
propagates (modelled by the explicit error matches). -/
def load_budget_from_env (env : Env) : Except String Budget :=
  match _env_float env "COST_CAP_USD" 0 with
  | Except.error e => Except.error e
  | Except.ok cap =>
      match _env_float env "COST_WARN_THRESHOLD_PCT" (8/10) with
      | Except.error e => Except.error e
      | Except.ok warn =>
          Except.ok (Budget.mk cap warn
            (pyLower ((envGet env "COST_ENFORCE").getD "strict")))

/-- The `for k, v in os.environ.items()` loop of
`load_price_table_from_env`, with the raise of a failed `float(...)`
propagating out of the loop. -/
def envPriceLoop (env : Env) : List (String × String) → PriceTable →
    Except String PriceTable
  | [], table => Except.ok table
  | kv :: rest, table =>
      if pyStartsWith kv.1 "PRICE__" && pyEndsWith kv.1 "__INPUT" then
        let model_key := pyDropRight (pyDrop kv.1 7) 7
        let model_lc := pyLower model_key
        match pyFloat? kv.2 with
        | none => Except.error ("could not convert string to float: " ++ kv.2)
        | some in_price =>
            let outStr := (envGet env ("PRICE__" ++ model_key ++ "__OUTPUT")).getD "0"
            match (if outStr = "" then some 0 else pyFloat? outStr) with
            | none => Except.error ("could not convert string to float: " ++ outStr)
            | some out_price =>
                envPriceLoop env rest (dictInsert table model_lc (in_price, out_price))
      else envPriceLoop env rest table

/-- Embeds `cost_cap.load_price_table_from_env()`: scan the environment for
`PRICE__<MODEL>__INPUT` keys; `float(v)` may raise, and the matching
`__OUTPUT` value defaults to `"0"` when absent and to `0` when blank. -/
def load_price_table_from_env (env : Env) : Except String PriceTable :=
  envPriceLoop env env []

/-- Embeds `cost_cap.load_price_table_auto()`: try the JSON registry and on any
exception fall back to the env loader.  The outcome of
`load_price_table_from_json()` — which performs file I/O — is passed in as
an `Except` value abstracting every possible failure (missing file, parse
error, permission error).  An exception raised by the fallback itself is
not caught by the `try`/`except` and propagates. -/
def load_price_table_auto (jsonOutcome : Except String PriceTable) (env : Env) :
    Except String PriceTable :=
  match jsonOutcome with
  | Except.ok t => Except.ok t
  | Except.error _ => load_price_table_from_env env

/-- Embeds `cost_cap.PRICE_STRICT`, read from the environment at import time. -/
def PRICE_STRICT (env : Env) : Bool :=
  ((envGet env "PRICE_STRICT").getD "0") == "1"

/-- The errors a `CostTracker` charge can raise: `CostCapExceeded`
(carrying `attempted` and `cap` and the context detail) and the `KeyError`
of an unknown model in strict price mode.  Distinct constructors model the
distinct Python exception types. -/
inductive CostError where
  | costCapExceeded (attempted : ℚ) (cap : ℚ) (detail : String)
  | keyError (msg : String)
  deriving Repr, DecidableEq

/-- Embeds `cost_cap.CostTracker`: budget, price table and the running total. -/
structure CostTracker where
  budget : Budget
  price_table : PriceTable
  total_usd : ℚ
  deriving Repr, DecidableEq

/-- Embeds `CostTracker.__init__(budget, price_table)`: the table defaults, via
Python truthiness (`price_table or load_price_table_auto()`), to the auto
loader's result when the argument is `None` **or** an empty dict; `auto`
is the outcome `load_price_table_auto()` would produce, whose exception
would propagate out of the constructor.  `total_usd` starts at `0`. -/
def CostTracker.init (budget : Budget) (price_table : Option PriceTable)
    (auto : Except String PriceTable) : Except String CostTracker :=
  match price_table with
  | some t =>
      if t.isEmpty then auto.map (fun a => ⟨budget, a, 0⟩)
      else Except.ok ⟨budget, t, 0⟩
  | none => auto.map (fun a => ⟨budget, a, 0⟩)

/-- Embeds `CostTracker._add_cost(delta, context)`: compute the attempted total;
with a positive cap, strict mode blocks at `attempted >= cap`, raising
`CostCapExceeded` before any assignment; otherwise the new total is
committed and returned. -/
def CostTracker.add_cost (t : CostTracker) (delta : ℚ) (context : String) :
    CostTracker × Except CostError ℚ :=
  let attempted := t.total_usd + delta
  let cap := t.budget.cap_usd
  if cap > 0 ∧ attempted ≥ cap ∧ t.budget.enforce_mode = "strict" then
    (t, Except.error (CostError.costCapExceeded attempted cap context))
  else
    ({ t with total_usd := attempted }, Except.ok attempted)

/-- Embeds `CostTracker.add_cost_dollars(usd, context)`: direct dollar charge,
delegating to `_add_cost` (`float(usd)` is the identity here). -/
def CostTracker.add_cost_dollars (t : CostTracker) (usd : ℚ) (context : String) :
    CostTracker × Except CostError ℚ :=
  t.add_cost usd context

/-- The f-string context built by `add_usage`. -/
def usageContext (model : String) (prompt_tokens completion_tokens : ℤ) : String :=
  "model=" ++ model ++ ", prompt=" ++ toString prompt_tokens ++
    ", completion=" ++ toString completion_tokens

/-- Embeds `CostTracker.add_usage(model, prompt_tokens, completion_tokens)`:
look the lowercased model up in the price table — unknown models raise
`KeyError` when `PRICE_STRICT` holds and are priced `(0, 0)` otherwise —
convert tokens to dollars per 1k, and delegate to `_add_cost`.
`price_strict` is the module global `PRICE_STRICT` at call time. -/
def CostTracker.add_usage (t : CostTracker) (price_strict : Bool) (model : String)
    (prompt_tokens completion_tokens : ℤ) : CostTracker × Except CostError ℚ :=
  let key := pyLower model
  match dictFind? t.price_table key with
  | some (per_in, per_out) =>
      let cost := (prompt_tokens : ℚ) / 1000 * per_in +
        (completion_tokens : ℚ) / 1000 * per_out
      t.add_cost cost (usageContext model prompt_tokens completion_tokens)
  | none =>
      if price_strict then
        (t, Except.error (CostError.keyError
          ("Model '" ++ model ++ "' not found in price registry")))
      else
        let cost := (prompt_tokens : ℚ) / 1000 * (0 : ℚ) +
          (completion_tokens : ℚ) / 1000 * (0 : ℚ)
        t.add_cost cost (usageContext model prompt_tokens completion_tokens)

/-- Embeds `price_loader._normalize(name)`: trim whitespace, lowercase. -/
def _normalize (name : String) : String :=
  pyLower (pyStrip name)

/-- One record as produced by `price_loader._iter_records` from the JSON
blob (either a list of objects or a `"provider:model"` map normalized into
records).  `model` is `rec.get("model", "")`; `input_per_1k_usd` /
`output_per_1k_usd` are `none` when the field is missing or
`float(...)` on it fails (the `try`/`except` catches both); `active` is
`none` when the key is absent; `aliases` is `rec.get("aliases")` with a
non-list value already discarded by the `isinstance` check. -/
structure PriceRecord where
  model : String := ""
  input_per_1k_usd : Option ℚ := none
  output_per_1k_usd : Option ℚ := none
  active : Option Bool := none
  aliases : List String := []
  deriving Repr, DecidableEq

/-- Embeds `price_loader._record_active(rec)`. -/
def _record_active (rec : PriceRecord) : Bool :=
  match rec.active with
  | some false => false
  | _ => true

/-- Insert the alias keys of one record, skipping empty normalized keys. -/
def insertAliases (table : PriceTable) (aliases : List String)
    (in_price out_price : ℚ) : PriceTable :=
  aliases.foldl
    (fun t aliasName =>
      let alias_key := _normalize aliasName
      if alias_key = "" then t else dictInsert t alias_key (in_price, out_price))
    table

/-- The body of `_build_table`'s loop for one record. -/
def buildStep (table : PriceTable) (rec : PriceRecord) : PriceTable :=
  if !_record_active rec then table
  else
    let model := _normalize rec.model
    if model = "" then table
    else
      match rec.input_per_1k_usd, rec.output_per_1k_usd with
      | some in_price, some out_price =>
          insertAliases (dictInsert table model (in_price, out_price))
            rec.aliases in_price out_price
      | _, _ => table

/-- Embeds `price_loader._build_table(records)`: skip inactive, nameless or
malformed records, insert the canonical key then every alias key with the
same tuple. -/
def _build_table (records : List PriceRecord) : PriceTable :=
  records.foldl buildStep []

/-- The module-level cache of `price_loader`: `_PRICE_CACHE` and
`_PRICE_CACHE_MTIME` (the latter holds the file mtime of the last load). -/
structure PriceCacheState where
  cache : Option PriceTable
  cache_mtime : Option ℚ
  deriving Repr, DecidableEq

/-- Embeds `price_loader._PRICE_CACHE_TTL_SECS`. -/
def _PRICE_CACHE_TTL_SECS : ℚ := 300

/-- The structured price source as the loader observes it: whether the
path exists, its current mtime, and the record stream
`_iter_records(json.load(f))` yields for its current content. -/
structure PriceSource where
  pathExists : Bool
  mtime : ℚ
  records : List PriceRecord
  deriving Repr, DecidableEq

/-- Embeds `price_loader.load_price_table_from_json()` over explicit cache state,
source state and wall clock `now = time.time()`: missing path raises
`FileNotFoundError`; then the TTL check (against the *stored file mtime*)
returns the cache; then the mtime-equality check returns the cache; else
re-parse and store the table with the file's mtime. -/
def load_price_table_from_json (st : PriceCacheState) (src : PriceSource)
    (now : ℚ) : Except String (PriceCacheState × PriceTable) :=
  if !src.pathExists then
    Except.error "Price registry not found"
  else
    match st.cache, st.cache_mtime with
    | some cached, some cm =>
        if now - cm < _PRICE_CACHE_TTL_SECS then
          Except.ok (st, cached)
        else if cm = src.mtime then
          Except.ok (st, cached)
        else
          let table := _build_table src.records
          Except.ok (⟨some table, some src.mtime⟩, table)
    | _, _ =>
        let table := _build_table src.records
        Except.ok (⟨some table, some src.mtime⟩, table)

/-- Embeds `executor_guard.cost_guard()` entry: the tracker it constructs and
yields, namely `CostTracker(load_budget_from_env(), load_price_table_from_env())`.
`auto` is the outcome `load_price_table_auto()` would produce if the
constructor's truthiness fallback consults it. -/
def cost_guard_tracker (env : Env) (auto : Except String PriceTable) :
    Except String CostTracker :=
  match load_budget_from_env env with
  | Except.error e => Except.error e
  | Except.ok budget =>
      match load_price_table_from_env env with
      | Except.error e => Except.error e
      | Except.ok env_table => CostTracker.init budget (some env_table) auto

/-! Concrete fixtures shared by several witnesses: the spec's cap-boundary
scenario (`cap = 0.006`, `gpt4o` priced `(0.005, 0.015)` per 1k). -/

def strictBudget6 : Budget :=
  { cap_usd := 6/1000, warn_threshold_pct := 8/10, enforce_mode := "strict" }

def softBudget6 : Budget :=
  { cap_usd := 6/1000, warn_threshold_pct := 8/10, enforce_mode := "soft" }

def gpt4oTable : PriceTable := [("gpt4o", (5/1000, 15/1000))]

def strictTracker6 : CostTracker := ⟨strictBudget6, gpt4oTable, 0⟩

def softTracker6 : CostTracker := ⟨softBudget6, gpt4oTable, 0⟩

/-- C1: in Strict mode with a positive cap, a `chargeDollars` or
`reportUsage` (priced model) call whose attempted total reaches the cap
fails with `CostCapExceeded` carrying the attempted total and the cap, and
the tracker is returned with `total_usd` unchanged. -/
theorem C1_strict_cap_rejection (t : CostTracker) (usd : ℚ) (ctx model : String)
    (prompt_tokens completion_tokens : ℤ) (price_strict : Bool)
    (hmode : t.budget.enforce_mode = "strict") (hcap : t.budget.cap_usd > 0) :
    (t.total_usd + usd ≥ t.budget.cap_usd →
      t.add_cost_dollars usd ctx =
        (t, Except.error (CostError.costCapExceeded (t.total_usd + usd)
          t.budget.cap_usd ctx))) ∧
    (∀ per_in per_out,
      dictFind? t.price_table (pyLower model) = some (per_in, per_out) →
      t.total_usd + ((prompt_tokens : ℚ) / 1000 * per_in +
          (completion_tokens : ℚ) / 1000 * per_out) ≥ t.budget.cap_usd →
      t.add_usage price_strict model prompt_tokens completion_tokens =
        (t, Except.error (CostError.costCapExceeded
          (t.total_usd + ((prompt_tokens : ℚ) / 1000 * per_in +
            (completion_tokens : ℚ) / 1000 * per_out))
          t.budget.cap_usd
          (usageContext model prompt_tokens completion_tokens)))) := by
  constructor
  · intro h
    simp [CostTracker.add_cost_dollars, CostTracker.add_cost, hmode, hcap, h]
  · intro per_in per_out hfind h
    simp [CostTracker.add_usage, hfind, CostTracker.add_cost, hmode, hcap, h]

/-- Witness for C1: the spec's boundary scenario — cap `0.006`, 2000
prompt tokens at `0.005/1k` attempt `0.010 ≥ 0.006` and are rejected with
the tracker left at total `0`. -/
theorem C1_strict_cap_rejection_witness :
    strictTracker6.add_usage false "gpt4o" 2000 0 =
      (strictTracker6, Except.error (CostError.costCapExceeded (1/100) (3/500)
        (usageContext "gpt4o" 2000 0))) := by
  have h := (C1_strict_cap_rejection strictTracker6 0 "" "gpt4o" 2000 0 false
    rfl (by norm_num [strictTracker6, strictBudget6])).2 (5/1000) (15/1000)
    rfl (by norm_num [strictTracker6, strictBudget6])
  rw [h]
  norm_num [strictTracker6, strictBudget6]

/-- C3: a successful `reportUsage` call on a priced model increases
`total_usd` by exactly `prompt/1000 * inputPrice + completion/1000 *
outputPrice` and returns the new total. -/
theorem C3_usage_charges_exact (t : CostTracker) (ps : Bool) (model : String)
    (p c : ℤ) (per_in per_out : ℚ) (t' : CostTracker) (r : ℚ)
    (hp : 0 ≤ p) (hc : 0 ≤ c)
    (hfind : dictFind? t.price_table (pyLower model) = some (per_in, per_out))
    (hok : t.add_usage ps model p c = (t', Except.ok r)) :
    t'.total_usd = t.total_usd +
      ((p : ℚ) / 1000 * per_in + (c : ℚ) / 1000 * per_out) ∧
    r = t'.total_usd := by
  simp only [CostTracker.add_usage, hfind, CostTracker.add_cost] at hok
  split at hok
  · simp at hok
  · simp only [Prod.mk.injEq, Except.ok.injEq] at hok
    obtain ⟨ht, hr⟩ := hok
    subst ht
    simp [← hr]

/-- Witness for C3: 800 prompt + 200 completion tokens of `gpt4o` cost
`0.004 + 0.003 = 0.007` on a capless tracker. -/
theorem C3_usage_charges_exact_witness :
    (⟨{ cap_usd := 0 }, gpt4oTable, 0⟩ : CostTracker).add_usage false "gpt4o" 800 200 =
      ((⟨{ cap_usd := 0 }, gpt4oTable, 7/1000⟩ : CostTracker), Except.ok (7/1000)) ∧
    ((7 : ℚ)/1000 = 0 + ((800 : ℚ) / 1000 * (5/1000) + (200 : ℚ) / 1000 * (15/1000))) := by
  constructor
  · have hfind : dictFind? gpt4oTable (pyLower "gpt4o") = some (5/1000, 15/1000) := rfl
    have hok : (⟨{ cap_usd := 0 }, gpt4oTable, 0⟩ : CostTracker).add_usage false "gpt4o" 800 200 =
        ((⟨{ cap_usd := 0 }, gpt4oTable, 7/1000⟩ : CostTracker), Except.ok (7/1000)) := by
      norm_num [CostTracker.add_usage, CostTracker.add_cost, hfind]
    have := C3_usage_charges_exact (⟨{ cap_usd := 0 }, gpt4oTable, 0⟩ : CostTracker)
      false "gpt4o" 800 200 (5/1000) (15/1000)
      (⟨{ cap_usd := 0 }, gpt4oTable, 7/1000⟩ : CostTracker) (7/1000)
      (by norm_num) (by norm_num) hfind hok
    exact hok
  · norm_num

/-- C4: on a model key absent from the price table, `reportUsage` with
`PRICE_STRICT` off prices the model `(0,0)` — committing an unchanged
total when the cap has not yet been reached — and with `PRICE_STRICT` on
raises the `KeyError` for the unknown model, a constructor distinct from
`costCapExceeded`. -/
theorem C4_unknown_model_duality (t : CostTracker) (env : Env) (model : String)
    (p c : ℤ)
    (hunknown : dictFind? t.price_table (pyLower model) = none)
    (hcap : t.total_usd < t.budget.cap_usd) :
    (PRICE_STRICT env = false →
      t.add_usage (PRICE_STRICT env) model p c = (t, Except.ok t.total_usd)) ∧
    (PRICE_STRICT env = true →
      t.add_usage (PRICE_STRICT env) model p c =
        (t, Except.error (CostError.keyError
          ("Model '" ++ model ++ "' not found in price registry")))) ∧
    (∀ msg a cp d, CostError.keyError msg ≠ CostError.costCapExceeded a cp d) := by
  refine ⟨?_, ?_, ?_⟩
  · intro hps
    have hz : (p : ℚ) / 1000 * (0 : ℚ) + (c : ℚ) / 1000 * (0 : ℚ) = 0 := by ring
    have hnc : ¬(t.budget.cap_usd > 0 ∧ t.total_usd ≥ t.budget.cap_usd ∧
        t.budget.enforce_mode = "strict") := by
      rintro ⟨-, h2, -⟩
      exact absurd h2 (not_le.mpr hcap)
    simp only [CostTracker.add_usage, hunknown, hps, Bool.false_eq_true,
      if_false, CostTracker.add_cost, hz, add_zero]
    rw [if_neg hnc]
  · intro hps
    simp [CostTracker.add_usage, hunknown, hps]
  · intro msg a cp d h
    cases h

/-- Witness for C4: `"ghost-model"` against an empty price table, cap `1`,
total `0`: lenient env commits `0`, strict env raises the `KeyError`. -/
theorem C4_unknown_model_duality_witness :
    ((⟨{ cap_usd := 1 }, [], 0⟩ : CostTracker).add_usage
        (PRICE_STRICT [("PRICE_STRICT", "0")]) "ghost-model" 1000 0 =
      ((⟨{ cap_usd := 1 }, [], 0⟩ : CostTracker), Except.ok 0)) ∧
    ((⟨{ cap_usd := 1 }, [], 0⟩ : CostTracker).add_usage
        (PRICE_STRICT [("PRICE_STRICT", "1")]) "ghost-model" 1000 0 =
      ((⟨{ cap_usd := 1 }, [], 0⟩ : CostTracker), Except.error (CostError.keyError
        "Model 'ghost-model' not found in price registry"))) := by
  have h0 := C4_unknown_model_duality (⟨{ cap_usd := 1 }, [], 0⟩ : CostTracker)
    [("PRICE_STRICT", "0")] "ghost-model" 1000 0 (by decide) (by norm_num)
  have h1 := C4_unknown_model_duality (⟨{ cap_usd := 1 }, [], 0⟩ : CostTracker)
    [("PRICE_STRICT", "1")] "ghost-model" 1000 0 (by decide) (by norm_num)
  exact ⟨h0.1 (by decide), h1.2.1 (by decide)⟩

/-- C5: in Soft mode, `chargeDollars` always commits (and never raises),
and no `reportUsage` outcome is a `costCapExceeded` error — in particular
a `0.010` charge against cap `0.006` lands in full. -/
theorem C5_soft_mode_never_blocks (t : CostTracker) (usd : ℚ) (ctx model : String)
    (ps : Bool) (p c : ℤ)
    (hmode : t.budget.enforce_mode = "soft") :
    (t.add_cost_dollars usd ctx =
      ({ t with total_usd := t.total_usd + usd }, Except.ok (t.total_usd + usd))) ∧
    (∀ a cp d, (t.add_usage ps model p c).2 ≠
      Except.error (CostError.costCapExceeded a cp d)) := by
  constructor
  · simp [CostTracker.add_cost_dollars, CostTracker.add_cost, hmode]
  · intro a cp d
    rcases hfind : dictFind? t.price_table (pyLower model) with - | ⟨per_in, per_out⟩
    · cases ps <;> simp [CostTracker.add_usage, hfind, CostTracker.add_cost, hmode]
    · simp [CostTracker.add_usage, hfind, CostTracker.add_cost, hmode]

/-- Witness for C5: the spec's soft-mode scenario — cap `0.006`, a `0.010`
usage charge commits, leaving `total_usd = 0.010`. -/
theorem C5_soft_mode_never_blocks_witness :
    softTracker6.add_cost_dollars (1/100) "" =
      ({ softTracker6 with total_usd := 1/100 }, Except.ok (1/100)) := by
  have h := (C5_soft_mode_never_blocks softTracker6 (1/100) "" "gpt4o" false
    2000 0 rfl).1
  norm_num [softTracker6] at h ⊢
  convert h using 2

/-- C10: passing an explicitly empty price table to the `CostTracker`
constructor is indistinguishable from passing none at all — truthiness
discards the empty dict and substitutes the composite auto loader's
result, so the tracker's table is the auto table, not the empty one. -/
theorem C10_empty_table_replaced (budget : Budget)
    (jsonOut : Except String PriceTable) (env : Env) (a : PriceTable) :
    CostTracker.init budget (some []) (load_price_table_auto jsonOut env) =
      CostTracker.init budget none (load_price_table_auto jsonOut env) ∧
    CostTracker.init budget (some []) (Except.ok a) = Except.ok ⟨budget, a, 0⟩ := by
  exact ⟨rfl, rfl⟩

/-- C6 counterexample: `totalSpent` can decrease — a negative direct
charge is accepted by `add_cost_dollars` (nothing validates the sign), and
on a capless tracker it commits, dropping the total from `0` to `-1`. -/
theorem C6_monotonic_counterexample :
    ((⟨{ cap_usd := 0 }, [], 0⟩ : CostTracker).add_cost_dollars (-1) "").1.total_usd <
      (⟨{ cap_usd := 0 }, [], 0⟩ : CostTracker).total_usd := by
  norm_num [CostTracker.add_cost_dollars, CostTracker.add_cost]

/-- C6 (amended): `totalSpent` never decreases under non-negative charges:
for a direct charge of a non-negative amount, and for usage with
non-negative token counts against a non-negatively priced (or unknown)
model, the post-operation total is `≥` the pre-operation total whether the
charge commits or is rejected. -/
theorem C6_total_never_decreases (t : CostTracker) (usd : ℚ) (ctx model : String)
    (ps : Bool) (p c : ℤ)
    (husd : 0 ≤ usd) (hp : 0 ≤ p) (hc : 0 ≤ c)
    (hprices : ∀ per_in per_out,
      dictFind? t.price_table (pyLower model) = some (per_in, per_out) →
      0 ≤ per_in ∧ 0 ≤ per_out) :
    t.total_usd ≤ (t.add_cost_dollars usd ctx).1.total_usd ∧
    t.total_usd ≤ (t.add_usage ps model p c).1.total_usd := by
  have hp' : (0 : ℚ) ≤ (p : ℚ) := by exact_mod_cast hp
  have hc' : (0 : ℚ) ≤ (c : ℚ) := by exact_mod_cast hc
  constructor
  · simp only [CostTracker.add_cost_dollars, CostTracker.add_cost]
    split
    · exact le_rfl
    · show t.total_usd ≤ t.total_usd + usd
      linarith
  · rcases hfind : dictFind? t.price_table (pyLower model) with - | ⟨per_in, per_out⟩
    · cases ps
      · simp only [CostTracker.add_usage, hfind, CostTracker.add_cost,
          Bool.false_eq_true, if_false]
        split
        · exact le_rfl
        · show t.total_usd ≤ t.total_usd + ((p : ℚ) / 1000 * 0 + (c : ℚ) / 1000 * 0)
          simp
      · simp [CostTracker.add_usage, hfind]
    · obtain ⟨hin, hout⟩ := hprices _ _ hfind
      have hcost : 0 ≤ (p : ℚ) / 1000 * per_in + (c : ℚ) / 1000 * per_out :=
        add_nonneg (mul_nonneg (by linarith) hin) (mul_nonneg (by linarith) hout)
      simp only [CostTracker.add_usage, hfind, CostTracker.add_cost]
      split
      · exact le_rfl
      · show t.total_usd ≤ t.total_usd +
          ((p : ℚ) / 1000 * per_in + (c : ℚ) / 1000 * per_out)
        linarith

/-- Witness for C6 (amended): a `$1` charge and a 10/20-token usage of an
unpriced model on a fresh capless tracker both leave the total `≥ 0`. -/
theorem C6_total_never_decreases_witness :
    (⟨{ cap_usd := 0 }, [], 0⟩ : CostTracker).total_usd ≤
      ((⟨{ cap_usd := 0 }, [], 0⟩ : CostTracker).add_cost_dollars 1 "").1.total_usd ∧
    (⟨{ cap_usd := 0 }, [], 0⟩ : CostTracker).total_usd ≤
      ((⟨{ cap_usd := 0 }, [], 0⟩ : CostTracker).add_usage false "m" 10 20).1.total_usd :=
  C6_total_never_decreases (⟨{ cap_usd := 0 }, [], 0⟩ : CostTracker) 1 "" "m" false 10 20
    (by norm_num) (by norm_num) (by norm_num)
    (by intro a b h; simp [dictFind?] at h)

/-- C7 counterexample: the composite loader *can* propagate an exception —
with the structured source failing and the environment holding the
unparseable price value `PRICE__M__INPUT=abc`, the fallback's `float("abc")`
raises and escapes `load_price_table_auto`. -/
theorem C7_auto_propagates_counterexample :
    (load_price_table_auto (Except.error "Price registry not found")
      [("PRICE__M__INPUT", "abc")]).isOk = false := by
  rfl

/-- C7 (amended): the composite loader never propagates a structured-load
failure — on any such failure it returns exactly the environment-style
fallback result, and on structured success it returns that table — but it
is exception-free only when the environment-style load itself parses. -/
theorem C7_auto_falls_back (env : Env) (t : PriceTable) (e : String)
    (henv : load_price_table_from_env env = Except.ok t) :
    load_price_table_auto (Except.error e) env = Except.ok t ∧
    ∀ tb : PriceTable, load_price_table_auto (Except.ok tb) env = Except.ok tb := by
  exact ⟨by simp [load_price_table_auto, henv], fun tb => rfl⟩

/-- Witness for C7 (amended): an environment with no price variables
parses to the empty table, and the composite loader returns it on a
missing-registry failure. -/
theorem C7_auto_falls_back_witness :
    load_price_table_auto (Except.error "Price registry not found") [] =
      Except.ok ([] : PriceTable) :=
  (C7_auto_falls_back [] [] "Price registry not found" rfl).1

/-! Fixtures for the cache-staleness scenario: one record priced `(1,1)`,
then the source edited to price it `(2,2)` with a new mtime. -/

def recOld : PriceRecord :=
  { model := "m", input_per_1k_usd := some 1, output_per_1k_usd := some 1 }

def recNew : PriceRecord :=
  { model := "m", input_per_1k_usd := some 2, output_per_1k_usd := some 2 }

def srcOld : PriceSource := ⟨true, 1000, [recOld]⟩

def srcNew : PriceSource := ⟨true, 1001, [recNew]⟩

def tblOld : PriceTable := [("m", (1, 1))]

/-- C2 (code bug): a changed modification marker does **not** invalidate
the cache within the TTL.  A first load at time `1000` caches the table
with the file mtime `1000`; the source is then edited (new content, mtime
`1001`); a reload at time `1002` — within the 300s TTL — hits the TTL
check, which short-circuits before the mtime comparison, and returns the
stale pre-edit table instead of the updated mapping. -/
theorem C2_edit_within_ttl_served_stale :
    load_price_table_from_json ⟨none, none⟩ srcOld 1000 =
      Except.ok (⟨some tblOld, some 1000⟩, tblOld) ∧
    load_price_table_from_json ⟨some tblOld, some 1000⟩ srcNew 1002 =
      Except.ok (⟨some tblOld, some 1000⟩, tblOld) ∧
    tblOld ≠ _build_table srcNew.records := by
  refine ⟨rfl, ?_, ?_⟩
  · norm_num [load_price_table_from_json, _PRICE_CACHE_TTL_SECS, srcNew]
  · intro h
    have h2 : _build_table srcNew.records = [("m", (2, 2))] := rfl
    rw [h2, tblOld] at h
    simp only [List.cons.injEq, Prod.mk.injEq] at h
    exact absurd h.1.2.1 (by norm_num)

/-- C9 counterexample: the Guard Scope does not obtain its price registry
via the composite auto resolution — with one env price pair set and a JSON
registry (auto result) pricing the same model differently, the tracker
yielded by `cost_guard` carries the environment table, not the auto one. -/
theorem C9_guard_ignores_auto_counterexample :
    ((cost_guard_tracker
        [("PRICE__GPT4O__INPUT", "2"), ("PRICE__GPT4O__OUTPUT", "3")]
        (Except.ok [("gpt4o", (1, 1))])).map CostTracker.price_table =
      Except.ok [("gpt4o", ((2 : ℚ), (3 : ℚ)))]) ∧
    ([("gpt4o", ((2 : ℚ), (3 : ℚ)))] : PriceTable) ≠ [("gpt4o", (1, 1))] := by
  constructor
  · have h1 : (cost_guard_tracker
        [("PRICE__GPT4O__INPUT", "2"), ("PRICE__GPT4O__OUTPUT", "3")]
        (Except.ok [("gpt4o", (1, 1))])).map CostTracker.price_table =
        Except.ok [("gpt4o", (((2 : ℕ) : ℚ), ((3 : ℕ) : ℚ)))] := rfl
    rw [h1]
    norm_num
  · intro h
    simp only [List.cons.injEq, Prod.mk.injEq] at h
    exact absurd h.1.2.1 (by norm_num)

/-- C9 (amended): on entry the Guard Scope constructs its fresh tracker
with the Budget from environment configuration and the *environment-style*
price table; the composite auto resolution is consulted only when that
environment table is empty, through the constructor's truthiness
fallback. -/
theorem C9_guard_uses_env_table (env : Env) (auto : Except String PriceTable)
    (budget : Budget) (envTbl : PriceTable)
    (hb : load_budget_from_env env = Except.ok budget)
    (he : load_price_table_from_env env = Except.ok envTbl) :
    (envTbl ≠ [] → cost_guard_tracker env auto = Except.ok ⟨budget, envTbl, 0⟩) ∧
    (envTbl = [] →
      cost_guard_tracker env auto = auto.map (fun a => ⟨budget, a, 0⟩)) := by
  constructor
  · intro hne
    have hemp : envTbl.isEmpty = false := by
      cases envTbl
      · exact absurd rfl hne
      · rfl
    simp only [cost_guard_tracker, hb, he, CostTracker.init, hemp,
      Bool.false_eq_true, if_false]
  · intro hnil
    subst hnil
    simp only [cost_guard_tracker, hb, he, CostTracker.init, List.isEmpty_nil,
      if_true]

/-- Witness for C9 (amended): with one env price pair, the guard's tracker
carries the env table `[("gpt4o", (2, 3))]` and total `0`. -/
theorem C9_guard_uses_env_table_witness :
    cost_guard_tracker [("PRICE__GPT4O__INPUT", "2"), ("PRICE__GPT4O__OUTPUT", "3")]
        (Except.ok [("gpt4o", (1, 1))]) =
      Except.ok ⟨{ cap_usd := 0, warn_threshold_pct := 8/10, enforce_mode := "strict" },
        [("gpt4o", (2, 3))], 0⟩ := by
  have hb : load_budget_from_env
      [("PRICE__GPT4O__INPUT", "2"), ("PRICE__GPT4O__OUTPUT", "3")] =
      Except.ok { cap_usd := 0, warn_threshold_pct := 8/10, enforce_mode := "strict" } := rfl
  have he : load_price_table_from_env
      [("PRICE__GPT4O__INPUT", "2"), ("PRICE__GPT4O__OUTPUT", "3")] =
      Except.ok [("gpt4o", ((2 : ℚ), (3 : ℚ)))] := by
    have h1 : load_price_table_from_env
        [("PRICE__GPT4O__INPUT", "2"), ("PRICE__GPT4O__OUTPUT", "3")] =
        Except.ok [("gpt4o", (((2 : ℕ) : ℚ), ((3 : ℕ) : ℚ)))] := rfl
    rw [h1]
    norm_num
  exact (C9_guard_uses_env_table _ _ _ _ hb he).1 (by simp)

/-! Association-list lemmas about `dictFind?`/`dictInsert`, and the key
set each record contributes to `_build_table`. -/

theorem dictFind?_cons {α : Type} (p : String × α) (rest : Dict α) (k : String) :
    dictFind? (p :: rest) k = if p.1 == k then some p.2 else dictFind? rest k := by
  by_cases h : (p.1 == k) = true
  · simp [dictFind?, h]
  · simp [dictFind?, h]

theorem dictFind?_map_upd_self {α : Type} (d : Dict α) (k : String) (v : α)
    (hsome : (d.find? (fun p => p.1 == k)).isSome = true) :
    dictFind? (d.map (fun p => if p.1 == k then (k, v) else p)) k = some v := by
  induction d with
  | nil => simp at hsome
  | cons p rest ih =>
      by_cases hp : (p.1 == k) = true
      · rw [List.map_cons, if_pos hp, dictFind?_cons]
        simp
      · rw [List.map_cons, if_neg hp, dictFind?_cons, if_neg hp]
        apply ih
        have hstep : List.find? (fun q => q.1 == k) (p :: rest) =
            List.find? (fun q => q.1 == k) rest := List.find?_cons_of_neg rest hp
        rwa [hstep] at hsome

theorem dictFind?_map_upd_ne {α : Type} (d : Dict α) (k k' : String) (v : α)
    (hne : ¬(k == k') = true) :
    dictFind? (d.map (fun p => if p.1 == k then (k, v) else p)) k' = dictFind? d k' := by
  induction d with
  | nil => rfl
  | cons p rest ih =>
      by_cases hp : (p.1 == k) = true
      · have hp' : p.1 = k := eq_of_beq hp
        rw [List.map_cons, if_pos hp, dictFind?_cons, dictFind?_cons, ih]
        have h2 : ¬(p.1 == k') = true := by rw [hp']; exact hne
        rw [if_neg hne, if_neg h2]
      · rw [List.map_cons, if_neg hp, dictFind?_cons, dictFind?_cons, ih]

theorem dictInsert_find?_self {α : Type} (d : Dict α) (k : String) (v : α) :
    dictFind? (dictInsert d k v) k = some v := by
  simp only [dictInsert]
  by_cases h : ((d.find? (fun p => p.1 == k)).isSome) = true
  · rw [if_pos h]
    exact dictFind?_map_upd_self d k v h
  · rw [if_neg h]
    have hnone : d.find? (fun p => p.1 == k) = none := by
      cases hf : d.find? (fun p => p.1 == k)
      · rfl
      · rw [hf] at h; simp at h
    simp [dictFind?, hnone]

theorem dictInsert_find?_ne {α : Type} (d : Dict α) (k k' : String) (v : α)
    (hne : ¬(k == k') = true) :
    dictFind? (dictInsert d k v) k' = dictFind? d k' := by
  simp only [dictInsert]
  by_cases h : ((d.find? (fun p => p.1 == k)).isSome) = true
  · rw [if_pos h]
    exact dictFind?_map_upd_ne d k k' v hne
  · rw [if_neg h]
    simp [dictFind?, hne]

/-- The normalized, nonempty alias keys a record's alias list yields. -/
def aliasKeys (aliases : List String) : List String :=
  (aliases.map _normalize).filter (fun k => !(k == ""))

theorem insertAliases_cons (tbl : PriceTable) (a : String) (rest : List String)
    (pin pout : ℚ) :
    insertAliases tbl (a :: rest) pin pout =
      insertAliases
        (if _normalize a = "" then tbl else dictInsert tbl (_normalize a) (pin, pout))
        rest pin pout := rfl

theorem insertAliases_find?_preserved (aliases : List String) (tbl : PriceTable)
    (k : String) (pin pout : ℚ)
    (hk : dictFind? tbl k = some (pin, pout)) :
    dictFind? (insertAliases tbl aliases pin pout) k = some (pin, pout) := by
  induction aliases generalizing tbl with
  | nil => exact hk
  | cons a rest ih =>
      rw [insertAliases_cons]
      by_cases ha : _normalize a = ""
      · rw [if_pos ha]
        exact ih tbl hk
      · rw [if_neg ha]
        apply ih
        by_cases hak : (_normalize a == k) = true
        · have h' : _normalize a = k := eq_of_beq hak
          subst h'
          exact dictInsert_find?_self tbl _ _
        · rw [dictInsert_find?_ne tbl _ k _ hak]
          exact hk

theorem aliasKeys_cons_mem (a : String) (rest : List String) (k : String)
    (hk : k ∈ aliasKeys (a :: rest)) :
    (¬_normalize a = "" ∧ k = _normalize a) ∨ k ∈ aliasKeys rest := by
  by_cases ha : (_normalize a == "") = true
  · right
    simpa [aliasKeys, List.filter_cons, ha] using hk
  · have hk' := hk
    simp only [aliasKeys, List.map_cons, List.filter_cons, ha, Bool.not_false,
      if_true, List.mem_cons] at hk'
    rcases hk' with h | h
    · exact Or.inl ⟨fun he => hak_absurd ha he, h⟩
    · exact Or.inr h
where
  hak_absurd {a : String} (ha : ¬(_normalize a == "") = true)
      (he : _normalize a = "") : False := ha (by rw [he]; rfl)

theorem insertAliases_find?_mem (aliases : List String) (tbl : PriceTable)
    (k : String) (pin pout : ℚ)
    (hk : k ∈ aliasKeys aliases) :
    dictFind? (insertAliases tbl aliases pin pout) k = some (pin, pout) := by
  induction aliases generalizing tbl with
  | nil => simp [aliasKeys] at hk
  | cons a rest ih =>
      rw [insertAliases_cons]
      rcases aliasKeys_cons_mem a rest k hk with ⟨ha, hka⟩ | h
      · subst hka
        rw [if_neg ha]
        exact insertAliases_find?_preserved rest _ _ _ _ (dictInsert_find?_self tbl _ _)
      · by_cases ha : _normalize a = ""
        · rw [if_pos ha]; exact ih tbl h
        · rw [if_neg ha]; exact ih _ h

theorem insertAliases_find?_not_mem (aliases : List String) (tbl : PriceTable)
    (k : String) (pin pout : ℚ)
    (hk : ¬k ∈ aliasKeys aliases) :
    dictFind? (insertAliases tbl aliases pin pout) k = dictFind? tbl k := by
  induction aliases generalizing tbl with
  | nil => rfl
  | cons a rest ih =>
      have hkrest : ¬k ∈ aliasKeys rest := by
        intro h
        apply hk
        by_cases ha : (_normalize a == "") = true
        · simpa [aliasKeys, List.filter_cons, ha] using h
        · simp only [aliasKeys, List.map_cons, List.filter_cons, ha,
            Bool.not_false, if_true, List.mem_cons]
          exact Or.inr (by simpa [aliasKeys] using h)
      rw [insertAliases_cons]
      by_cases ha : _normalize a = ""
      · rw [if_pos ha]
        exact ih tbl hkrest
      · rw [if_neg ha]
        rw [ih _ hkrest]
        have hne : ¬(_normalize a == k) = true := by
          intro hbeq
          apply hk
          have h' : _normalize a = k := eq_of_beq hbeq
          simp only [aliasKeys, List.map_cons, List.filter_cons]
          have ha' : (_normalize a == "") = false := by
            cases hb : (_normalize a == "")
            · rfl
            · exact absurd (eq_of_beq hb) ha
          rw [ha']
          exact h' ▸ List.mem_cons_self _ _
        exact dictInsert_find?_ne tbl _ k _ hne

/-- The keys one record contributes to the table in `_build_table`. -/
def recordKeys (rec : PriceRecord) : List String :=
  if !_record_active rec then []
  else if _normalize rec.model = "" then []
  else
    match rec.input_per_1k_usd, rec.output_per_1k_usd with
    | some _, some _ => _normalize rec.model :: aliasKeys rec.aliases
    | _, _ => []

theorem buildStep_find?_not_mem (tbl : PriceTable) (rec : PriceRecord) (k : String)
    (hk : ¬k ∈ recordKeys rec) :
    dictFind? (buildStep tbl rec) k = dictFind? tbl k := by
  cases hact : _record_active rec with
  | false => simp only [buildStep, hact, Bool.not_false, if_true]
  | true =>
      simp only [buildStep, recordKeys, hact, Bool.not_true, Bool.false_eq_true,
        if_false] at hk ⊢
      by_cases hm : _normalize rec.model = ""
      · rw [if_pos hm]
      · rw [if_neg hm]
        rw [if_neg hm] at hk
        rcases hin : rec.input_per_1k_usd with - | pin <;>
          rcases hout : rec.output_per_1k_usd with - | pout <;>
            simp only [hin, hout] at hk ⊢
        rw [List.mem_cons, not_or] at hk
        obtain ⟨hk1, hk2⟩ := hk
        rw [insertAliases_find?_not_mem _ _ _ _ _ hk2]
        exact dictInsert_find?_ne tbl _ k _ (fun hbeq => hk1 (eq_of_beq hbeq).symm)

theorem buildStep_find?_mem (tbl : PriceTable) (rec : PriceRecord) (pin pout : ℚ)
    (hact : _record_active rec = true)
    (hmodel : ¬_normalize rec.model = "")
    (hin : rec.input_per_1k_usd = some pin)
    (hout : rec.output_per_1k_usd = some pout) :
    ∀ k ∈ recordKeys rec, dictFind? (buildStep tbl rec) k = some (pin, pout) := by
  intro k hk
  simp only [buildStep, recordKeys, hact, Bool.not_true, Bool.false_eq_true,
    if_false, if_neg hmodel, hin, hout] at hk ⊢
  rcases List.mem_cons.mp hk with hkm | hka
  · subst hkm
    exact insertAliases_find?_preserved _ _ _ _ _ (dictInsert_find?_self tbl _ _)
  · exact insertAliases_find?_mem _ _ _ _ _ hka

theorem foldl_buildStep_find?_not_mem (post : List PriceRecord) (tbl : PriceTable)
    (k : String) (hk : ∀ rec ∈ post, ¬k ∈ recordKeys rec) :
    dictFind? (post.foldl buildStep tbl) k = dictFind? tbl k := by
  induction post generalizing tbl with
  | nil => rfl
  | cons r rest ih =>
      rw [List.foldl_cons, ih _ (fun rec h => hk rec (List.mem_cons_of_mem r h)),
        buildStep_find?_not_mem tbl r k (hk r (List.mem_cons_self r rest))]

/-! Fixtures for the alias-overwrite scenario. -/

def recAliased : PriceRecord :=
  { model := "a", input_per_1k_usd := some 1, output_per_1k_usd := some 2,
    aliases := ["b"] }

def recOverride : PriceRecord :=
  { model := "b", input_per_1k_usd := some 3, output_per_1k_usd := some 4 }

/-- C8 counterexample: a later record may redefine an alias key — after
records `{model "a", aliases ["b"], prices (1,2)}` and
`{model "b", prices (3,4)}`, the canonical key `"a"` and its alias `"b"`
no longer carry the identical tuple. -/
theorem C8_alias_overwrite_counterexample :
    dictFind? (_build_table [recAliased, recOverride]) "a" ≠
      dictFind? (_build_table [recAliased, recOverride]) "b" := by
  intro h
  have ha : dictFind? (_build_table [recAliased, recOverride]) "a" =
      some ((1 : ℚ), (2 : ℚ)) := rfl
  have hb : dictFind? (_build_table [recAliased, recOverride]) "b" =
      some ((3 : ℚ), (4 : ℚ)) := rfl
  rw [ha, hb] at h
  simp only [Option.some.injEq, Prod.mk.injEq] at h
  exact absurd h.1 (by norm_num)

/-- C8 (amended): for every accepted record with a model name and parseable
prices, as long as no *later* accepted record re-inserts any of its keys,
the built table maps the normalized canonical model name and every
normalized nonempty alias to the record's identical price tuple. -/
theorem C8_alias_equivalence (pre post : List PriceRecord) (rec : PriceRecord)
    (pin pout : ℚ) (k : String)
    (hact : _record_active rec = true)
    (hmodel : ¬_normalize rec.model = "")
    (hin : rec.input_per_1k_usd = some pin)
    (hout : rec.output_per_1k_usd = some pout)
    (hfresh : ∀ r ∈ post, ∀ k' ∈ recordKeys rec, ¬k' ∈ recordKeys r)
    (hk : k ∈ recordKeys rec) :
    dictFind? (_build_table (pre ++ rec :: post)) k = some (pin, pout) := by
  have h1 : _build_table (pre ++ rec :: post) =
      post.foldl buildStep (buildStep (pre.foldl buildStep []) rec) := by
    simp [_build_table, List.foldl_append]
  rw [h1, foldl_buildStep_find?_not_mem post _ k (fun r hr => hfresh r hr k hk),
    buildStep_find?_mem _ rec pin pout hact hmodel hin hout k hk]

/-- Witness for C8 (amended): the aliased record alone maps both `"a"` and
its alias `"b"` to the identical tuple `(1, 2)`. -/
theorem C8_alias_equivalence_witness :
    dictFind? (_build_table [recAliased]) "a" = some ((1 : ℚ), (2 : ℚ)) ∧
    dictFind? (_build_table [recAliased]) "b" = some ((1 : ℚ), (2 : ℚ)) := by
  constructor
  · exact C8_alias_equivalence [] [] recAliased 1 2 "a" rfl (by decide) rfl rfl
      (by intro r hr; simp at hr) (by decide)
  · exact C8_alias_equivalence [] [] recAliased 1 2 "b" rfl (by decide) rfl rfl
      (by intro r hr; simp at hr) (by decide)

end CostCap
